import Mathlib

/-!
Shallow embedding of the ZooKeeper client-side connection balancer
(`src/Common/ZooKeeper/ZooKeeperLoadBalancer.cpp`).

The registry stores endpoints as a list; the id of each endpoint equals its
index in the list (invariant established at construction and preserved by all
status updates).  Machine integers (`size_t`) are modelled as `Nat`; the value
`std::numeric_limits<size_t>::max()` used as a sentinel in `getMostPriority`
is modelled by the literal `2 ^ 64 - 1`.  Out-of-bounds vector indexing, which
is undefined behaviour in the source, is modelled by total `getD` accesses
except in `endpointsWorthChecking`, where a possible out-of-bounds read is the
subject of a claim and indexing is therefore tracked with `Option`.
Randomness (`std::uniform_int_distribution` applied to `thread_local_rng`) is
modelled by an explicit draw parameter `rand`; the drawn index into a
non-empty range `r` is `rand % r.length`, so every element of the range is
attainable and the result is always inside the range.
-/

namespace ZooKeeperLoadBalancer

/-- `enum Status { UNDEF = 0, ONLINE, OFFLINE }`. -/
inductive Status where
  | undef
  | online
  | offline
deriving DecidableEq, Repr

/-- `EndpointRegistry::Endpoint`. -/
structure Endpoint where
  address : String
  secure : Bool
  id : Nat
  status : Status
deriving DecidableEq, Repr

instance : Inhabited Endpoint := ⟨⟨"", false, 0, .undef⟩⟩

/-- `ClientSettings` (the part used by the balancer). -/
structure ClientSettings where
  use_fallback_session_lifetime : Bool
deriving DecidableEq, Repr

/-- `IClientsConnectionBalancer::EndpointInfo`. -/
structure EndpointInfo where
  address : String
  secure : Bool
  id : Nat
  settings : ClientSettings
deriving DecidableEq, Repr

/-- `std::numeric_limits<size_t>::max()`. -/
def SIZE_MAX : Nat := 2 ^ 64 - 1

/-- Write the status of the endpoint stored at index `i`
(`endpoints[i].status = s`; no effect when `i` is out of range, which is
undefined behaviour in the source and unreachable in the claims). -/
def setStatus (es : List Endpoint) (i : Nat) (s : Status) : List Endpoint :=
  match es.get? i with
  | some e => es.set i { e with status := s }
  | none => es

/-- `EndpointRegistry::markHostOffline`. -/
def markHostOffline (es : List Endpoint) (i : Nat) : List Endpoint :=
  setStatus es i .offline

/-- `EndpointRegistry::markHostOnline`. -/
def markHostOnline (es : List Endpoint) (i : Nat) : List Endpoint :=
  setStatus es i .online

/-- `EndpointRegistry::resetOfflineStatuses`. -/
def resetOfflineStatuses (es : List Endpoint) : List Endpoint :=
  es.map fun e => if e.status = .offline then { e with status := .undef } else e

/-- `EndpointRegistry::getRangeByStatus`: ids of all endpoints whose status
equals `s`, in registry order. -/
def getRangeByStatus (es : List Endpoint) (s : Status) : List Nat :=
  (es.filter fun e => e.status = s).map fun e => e.id

/-- Status of the endpoint stored at index `i` (`endpoints[i].status`). -/
def statusOf (es : List Endpoint) (i : Nat) : Status :=
  (es.getD i default).status

/-- `IBalancerWithEndpointStatuses::getAvailableEndpointsCount`. -/
def availableCount (es : List Endpoint) : Nat :=
  (getRangeByStatus es .online).length + (getRangeByStatus es .undef).length

/-- State shared by the balancer implementations: the endpoint registry,
the priority vector (priority policies), and the round-robin cursor. -/
structure BalancerState where
  endpoints : List Endpoint
  priorities : List Nat
  roundRobinId : Nat
deriving DecidableEq, Repr

/-- The four selection behaviours implemented by the balancer classes
(`Random`, `IBalancerWithPriorities` for the three priority flavours,
`RoundRobin`, `FirstOrRandom`). -/
inductive Policy where
  | random
  | priorities
  | roundRobin
  | firstOrRandom
deriving DecidableEq, Repr

/-- `parseForSocketAddress`: strip a leading `secure://` prefix. -/
def parseForSocketAddress (raw : String) : String × Bool :=
  if raw.startsWith "secure://" then (raw.drop 9, true) else (raw, false)

/-- Endpoint construction in `IBalancerWithEndpointStatuses`'s constructor:
endpoint `i` stores the parsed address of `hosts[i]` and `id = i`. -/
def initEndpoints (hosts : List String) : List Endpoint :=
  (List.range hosts.length).map fun i =>
    let p := parseForSocketAddress (hosts.getD i "")
    { address := p.1, secure := p.2, id := i, status := .undef }

/-- Balancer construction: the priority vector is filled by
`priorities.push_back(priority_calculator(registry.findEndpointById(i)))`
for `i = 0 .. N-1`, and the round-robin cursor starts at `0`. -/
def initState (hosts : List String) (priCalc : Endpoint → Nat) : BalancerState :=
  { endpoints := initEndpoints hosts
    priorities := (initEndpoints hosts).map priCalc
    roundRobinId := 0 }

/-- `IBalancerWithEndpointStatuses::asOptimalEndpoint`. -/
def asOptimalEndpoint (st : BalancerState) (id : Nat) : EndpointInfo :=
  let e := st.endpoints.getD id default
  { address := e.address, secure := e.secure, id := id,
    settings := { use_fallback_session_lifetime := false } }

/-- `IBalancerWithEndpointStatuses::asTemporaryEndpoint`. -/
def asTemporaryEndpoint (st : BalancerState) (id : Nat) : EndpointInfo :=
  let e := st.endpoints.getD id default
  { address := e.address, secure := e.secure, id := id,
    settings := { use_fallback_session_lifetime := true } }

/-- Result of `getHostToConnect`: either an `EndpointInfo` together with the
post-call state, or the `ALL_CONNECTION_TRIES_FAILED` exception thrown after
`resetOfflineStatuses()` (the post-throw state is carried alongside). -/
inductive SelectResult where
  | ok (info : EndpointInfo) (st : BalancerState)
  | allTriesFailed (st : BalancerState)
deriving DecidableEq, Repr

/-- `Random::getHostFrom`: uniform draw from a non-empty range, returned as
an optimal endpoint. -/
def randomGetHostFrom (st : BalancerState) (range : List Nat) (rand : Nat) :
    EndpointInfo :=
  asOptimalEndpoint st (range.getD (rand % range.length) 0)

/-- `Random::getHostToConnect`. -/
def randomGetHostToConnect (st : BalancerState) (rand : Nat) : SelectResult :=
  let online := getRangeByStatus st.endpoints .online
  if online.isEmpty then
    let undefs := getRangeByStatus st.endpoints .undef
    if undefs.isEmpty then
      .allTriesFailed { st with endpoints := resetOfflineStatuses st.endpoints }
    else
      .ok (randomGetHostFrom st undefs rand) st
  else
    .ok (randomGetHostFrom st online rand) st

/-- `IBalancerWithPriorities::isOptimalEndpoint`, exactly as written in the
source: `priorities[id] == *std::min(priorities.begin(), priorities.end())`.
`std::min` of the two iterators is `begin()` (for a non-empty vector), so the
comparison is against `priorities[0]`, not against the minimum element. -/
def isOptimalEndpoint (st : BalancerState) (id : Nat) : Bool :=
  st.priorities.getD id 0 == st.priorities.getD 0 0

/-- `IBalancerWithPriorities::getHostWithSetting`. -/
def getHostWithSetting (st : BalancerState) (id : Nat) : EndpointInfo :=
  if isOptimalEndpoint st id then asOptimalEndpoint st id
  else asTemporaryEndpoint st id

/-- One step of the scan in `IBalancerWithPriorities::getMostPriority`:
`if (min_priority > p) { min_priority = p; min_id = id; }`. -/
def mostPriorityStep (pri : Nat → Nat) (acc : Nat × Nat) (id : Nat) : Nat × Nat :=
  if acc.1 > pri id then (pri id, id) else acc

/-- `IBalancerWithPriorities::getMostPriority`: scan the ids of status
`status` keeping the first index realising the running minimum priority;
the sentinel `min_id = getEndpointsCount()` signals that nothing was taken. -/
def getMostPriority (st : BalancerState) (status : Status) : Option Nat :=
  let endpointsIndex := getRangeByStatus st.endpoints status
  let result := endpointsIndex.foldl
    (mostPriorityStep fun id => st.priorities.getD id 0)
    (SIZE_MAX, st.endpoints.length)
  if result.2 = st.endpoints.length then none else some result.2

/-- `IBalancerWithPriorities::getHostToConnect`. -/
def prioritiesGetHostToConnect (st : BalancerState) : SelectResult :=
  match getMostPriority st .online with
  | some id => .ok (getHostWithSetting st id) st
  | none =>
    match getMostPriority st .undef with
    | some id => .ok (getHostWithSetting st id) st
    | none =>
      .allTriesFailed { st with endpoints := resetOfflineStatuses st.endpoints }

/-- `RoundRobin::selectEndpoint`: advance the cursor past `id` and return the
endpoint as optimal. -/
def selectEndpoint (st : BalancerState) (id : Nat) :
    EndpointInfo × BalancerState :=
  (asOptimalEndpoint st id,
   { st with roundRobinId := (id + 1) % st.endpoints.length })

/-- `RoundRobin::getHostToConnect`. -/
def roundRobinGetHostToConnect (st : BalancerState) : SelectResult :=
  let rrStatus := statusOf st.endpoints st.roundRobinId
  if rrStatus = .online then
    let p := selectEndpoint st st.roundRobinId
    .ok p.1 p.2
  else
    let online := getRangeByStatus st.endpoints .online
    if online.isEmpty then
      if rrStatus = .undef then
        .ok (asOptimalEndpoint st st.roundRobinId) st
      else
        let undefs := getRangeByStatus st.endpoints .undef
        if undefs.isEmpty then
          .allTriesFailed
            { st with endpoints := resetOfflineStatuses st.endpoints }
        else
          let p := selectEndpoint st (undefs.getD 0 0)
          .ok p.1 p.2
    else
      let p := selectEndpoint st (online.getD 0 0)
      .ok p.1 p.2

/-- `FirstOrRandom::getHostFrom`: uniform draw from a non-empty range,
returned as a temporary endpoint. -/
def firstOrRandomGetHostFrom (st : BalancerState) (range : List Nat)
    (rand : Nat) : EndpointInfo :=
  asTemporaryEndpoint st (range.getD (rand % range.length) 0)

/-- `FirstOrRandom::getHostToConnect`. -/
def firstOrRandomGetHostToConnect (st : BalancerState) (rand : Nat) :
    SelectResult :=
  let firstStatus := statusOf st.endpoints 0
  if firstStatus = .online then
    .ok (asOptimalEndpoint st 0) st
  else
    let online := getRangeByStatus st.endpoints .online
    if online.isEmpty then
      if firstStatus = .undef then
        .ok (asOptimalEndpoint st 0) st
      else
        let undefs := getRangeByStatus st.endpoints .undef
        if undefs.isEmpty then
          .allTriesFailed
            { st with endpoints := resetOfflineStatuses st.endpoints }
        else
          .ok (firstOrRandomGetHostFrom st undefs rand) st
    else
      .ok (firstOrRandomGetHostFrom st online rand) st

/-- Virtual dispatch of `getHostToConnect` over the balancer classes. -/
def getHostToConnect (p : Policy) (st : BalancerState) (rand : Nat) :
    SelectResult :=
  match p with
  | .random => randomGetHostToConnect st rand
  | .priorities => prioritiesGetHostToConnect st
  | .roundRobin => roundRobinGetHostToConnect st
  | .firstOrRandom => firstOrRandomGetHostToConnect st rand

/-- The loop condition `current_id_set || priorities[endpoint] < priorities[current]`
in `IBalancerWithPriorities::endpointsWorthChecking`, with C++ short-circuit
evaluation: when `current_id_set` holds the priority vector is not read at
all; otherwise both reads are tracked, `none` marking an out-of-bounds read. -/
def worthCond (st : BalancerState) (currentSet : Bool) (current e : Nat) :
    Option Bool :=
  if currentSet then some true
  else
    match st.priorities.get? e, st.priorities.get? current with
    | some pe, some pc => some (decide (pe < pc))
    | _, _ => none

/-- One filtering loop of `endpointsWorthChecking` over a range of ids,
collecting the ids that pass `worthCond`; `none` if any iteration performed
an out-of-bounds read of the priority vector. -/
def worthFilter (st : BalancerState) (currentSet : Bool) (current : Nat) :
    List Nat → Option (List Nat)
  | [] => some []
  | e :: rest =>
    match worthCond st currentSet current e with
    | none => none
    | some true => (worthFilter st currentSet current rest).map (e :: ·)
    | some false => worthFilter st currentSet current rest

/-- `IBalancerWithPriorities::endpointsWorthChecking`:
`current = current_endpoint_id.value_or(getEndpointsCount())`, then the
`UNDEF` range and the `OFFLINE` range are filtered by `worthCond` and the
surviving ids are returned through `getHostWithSetting`.  The result is
`none` when an out-of-bounds read of the priority vector occurred. -/
def endpointsWorthChecking (st : BalancerState) (currentOpt : Option Nat) :
    Option (List EndpointInfo) :=
  let current := currentOpt.getD st.endpoints.length
  let currentSet := currentOpt.isSome
  match worthFilter st currentSet current (getRangeByStatus st.endpoints .undef),
        worthFilter st currentSet current (getRangeByStatus st.endpoints .offline) with
  | some l1, some l2 => some ((l1 ++ l2).map (getHostWithSetting st))
  | _, _ => none

/-- `hasBetterHostToConnect` for each balancer class. -/
def hasBetterHostToConnect (p : Policy) (st : BalancerState) (current : Nat) :
    Bool :=
  match p with
  | .random => false
  | .roundRobin => false
  | .priorities =>
    match getMostPriority st .online with
    | some id => id ≠ current
    | none => false
  | .firstOrRandom =>
    statusOf st.endpoints 0 = .online && current ≠ 0

/-- The status updates the balancer interface exposes to the connection
loop. -/
inductive Update where
  | markOnline (id : Nat)
  | markOffline (id : Nat)
  | resetOffline
deriving DecidableEq, Repr

/-- Apply one status update to the balancer state. -/
def applyUpdate (st : BalancerState) : Update → BalancerState
  | .markOnline i => { st with endpoints := markHostOnline st.endpoints i }
  | .markOffline i => { st with endpoints := markHostOffline st.endpoints i }
  | .resetOffline => { st with endpoints := resetOfflineStatuses st.endpoints }

/-- Apply a sequence of status updates, oldest first. -/
def applyUpdates (us : List Update) (st : BalancerState) : BalancerState :=
  us.foldl applyUpdate st

/-- Outcome of the DNS pre-check `isKeeperHostDNSAvailable`: resolution
succeeded, `HostNotFoundException`, or `DNSException` (the latter sets the
sticky `dns_error_occurred` flag). -/
inductive DnsOutcome where
  | ok
  | hostNotFound
  | dnsError
deriving DecidableEq, Repr

/-- Observable outcome of `ZooKeeperLoadBalancer::createClient`:
a connected client (with the endpoint id and whether the fallback session
lifetime was applied), the internal `ALL_CONNECTION_TRIES_FAILED` exception
escaping the function, one of the two `ZCONNECTIONLOSS` errors of
`throwWhenNoHostAvailable`, or exhaustion of the step budget of the model. -/
inductive ClientResult where
  | client (id : Nat) (fallbackUsed : Bool)
  | allTriesFailedErr
  | connLossDns
  | connLossGeneric
  | outOfFuel
deriving DecidableEq, Repr

/-- `throwWhenNoHostAvailable` (dead code in the source: its only call site
is commented out). -/
def throwWhenNoHostAvailable (dnsErrorOccurred : Bool) : ClientResult :=
  if dnsErrorOccurred then .connLossDns else .connLossGeneric

/-- `ZooKeeperLoadBalancer::createClient`.  The environment is modelled by
per-attempt oracles: `dns k` is the DNS pre-check outcome and `connect k`
the session-construction outcome of attempt `k`; `rands k` is the random
draw used by that attempt's selection.  `getHostToConnect` is called outside
the `try` block, so the `ALL_CONNECTION_TRIES_FAILED` it throws propagates
out of `createClient` untranslated (the `throwWhenNoHostAvailable` call is
commented out in the source). -/
def createClientLoop (p : Policy) (dns : Nat → DnsOutcome)
    (connect : Nat → Bool) (rands : Nat → Nat) :
    Nat → BalancerState → Nat → Bool → ClientResult
  | 0, _, _, _ => .outOfFuel
  | fuel + 1, st, attempt, dnsErr =>
    match getHostToConnect p st (rands attempt) with
    | .allTriesFailed _ => .allTriesFailedErr
    | .ok info st' =>
      match dns attempt with
      | .hostNotFound =>
        createClientLoop p dns connect rands fuel
          { st' with endpoints := markHostOffline st'.endpoints info.id }
          (attempt + 1) dnsErr
      | .dnsError =>
        createClientLoop p dns connect rands fuel
          { st' with endpoints := markHostOffline st'.endpoints info.id }
          (attempt + 1) true
      | .ok =>
        if connect attempt then
          let st2 := { st' with endpoints := markHostOnline st'.endpoints info.id }
          if hasBetterHostToConnect p st2 info.id then
            createClientLoop p dns connect rands fuel st2 (attempt + 1) dnsErr
          else
            .client info.id info.settings.use_fallback_session_lifetime
        else
          createClientLoop p dns connect rands fuel
            { st' with endpoints := markHostOffline st'.endpoints info.id }
            (attempt + 1) dnsErr

/-- `createClient` starting from a balancer state, with a step budget. -/
def createClient (p : Policy) (st : BalancerState) (dns : Nat → DnsOutcome)
    (connect : Nat → Bool) (rands : Nat → Nat) (fuel : Nat) : ClientResult :=
  createClientLoop p dns connect rands fuel st 1 false

/-- The id sequence visited by repeating
`getHostToConnect(); markHostOnline(result.id)` on the round-robin balancer
(`k` iterations; the trace stops early if selection throws). -/
def rrTrace : BalancerState → Nat → List Nat
  | _, 0 => []
  | st, k + 1 =>
    match roundRobinGetHostToConnect st with
    | .ok info st' =>
      info.id ::
        rrTrace { st' with endpoints := markHostOnline st'.endpoints info.id } k
    | .allTriesFailed _ => []

/-! ### Registry invariants and basic lemmas -/

/-- The registration invariant: each endpoint's `id` field equals its index
in the registry vector. -/
def IdsOk (es : List Endpoint) : Prop :=
  es.map (fun e => e.id) = List.range es.length

instance (es : List Endpoint) : Decidable (IdsOk es) :=
  inferInstanceAs (Decidable (es.map (fun e => e.id) = List.range es.length))

theorem setStatus_length (es : List Endpoint) (i : Nat) (s : Status) :
    (setStatus es i s).length = es.length := by
  unfold setStatus
  cases h : es.get? i with
  | none => rfl
  | some e => simp [List.length_set]

theorem resetOfflineStatuses_length (es : List Endpoint) :
    (resetOfflineStatuses es).length = es.length := by
  simp [resetOfflineStatuses]

theorem setStatus_map_id (es : List Endpoint) (i : Nat) (s : Status) :
    (setStatus es i s).map (fun e => e.id) = es.map (fun e => e.id) := by
  unfold setStatus
  cases h : es.get? i with
  | none => rfl
  | some e =>
    rw [List.map_set]
    rw [List.get?_eq_getElem?] at h
    have hi : i < es.length := by
      by_contra hge
      rw [List.getElem?_eq_none (by omega)] at h
      exact Option.noConfusion h
    rw [List.getElem?_eq_getElem hi] at h
    have he : es[i] = e := Option.some.inj h
    apply List.ext_getElem (by simp)
    intro n h₁ h₂
    rw [List.getElem_set]
    split
    · next heq => subst heq; simp [← he]
    · rfl

theorem resetOfflineStatuses_map_id (es : List Endpoint) :
    (resetOfflineStatuses es).map (fun e => e.id) = es.map (fun e => e.id) := by
  unfold resetOfflineStatuses
  rw [List.map_map]
  congr 1
  funext e
  by_cases h : e.status = .offline <;> simp [h]

theorem IdsOk.setStatus {es : List Endpoint} (h : IdsOk es) (i : Nat)
    (s : Status) : IdsOk (setStatus es i s) := by
  unfold IdsOk at h ⊢
  rw [setStatus_map_id, setStatus_length, h]

theorem IdsOk.reset {es : List Endpoint} (h : IdsOk es) :
    IdsOk (resetOfflineStatuses es) := by
  unfold IdsOk at h ⊢
  rw [resetOfflineStatuses_map_id, resetOfflineStatuses_length, h]

/-- Under `IdsOk`, an endpoint determines its own index. -/
theorem IdsOk.id_of_mem {es : List Endpoint} (h : IdsOk es) {e : Endpoint}
    (hm : e ∈ es) : ∃ hlt : e.id < es.length, es[e.id] = e := by
  obtain ⟨n, hn, he⟩ := List.mem_iff_getElem.mp hm
  have hmap : (es.map (fun e => e.id))[n]? = some e.id := by
    rw [List.getElem?_map, List.getElem?_eq_getElem hn]
    simp [he]
  rw [h] at hmap
  rw [List.getElem?_eq_getElem (by simpa using hn)] at hmap
  rw [List.getElem_range] at hmap
  have hid : e.id = n := (Option.some.inj hmap).symm
  subst hid
  exact ⟨hn, he⟩

theorem mem_getRangeByStatus {es : List Endpoint} {s : Status} {i : Nat} :
    i ∈ getRangeByStatus es s ↔ ∃ e ∈ es, e.id = i ∧ e.status = s := by
  unfold getRangeByStatus
  simp only [List.mem_map, List.mem_filter, decide_eq_true_eq]
  constructor
  · rintro ⟨e, ⟨he, hs⟩, hid⟩; exact ⟨e, he, hid, hs⟩
  · rintro ⟨e, he, hid, hs⟩; exact ⟨e, ⟨he, hs⟩, hid⟩

/-- Under `IdsOk`, membership in a status range means: the index is in
bounds and the endpoint stored there has that status. -/
theorem statusOf_of_mem_range {es : List Endpoint} {s : Status} {i : Nat}
    (h : IdsOk es) (hm : i ∈ getRangeByStatus es s) :
    i < es.length ∧ statusOf es i = s := by
  obtain ⟨e, he, hid, hs⟩ := mem_getRangeByStatus.mp hm
  obtain ⟨hlt, hget⟩ := h.id_of_mem he
  subst hid
  refine ⟨hlt, ?_⟩
  unfold statusOf
  rw [List.getD_eq_getElem?_getD, List.getElem?_eq_getElem hlt]
  simp [hget, hs]

theorem getRangeByStatus_eq_nil {es : List Endpoint} {s : Status} :
    getRangeByStatus es s = [] ↔ ∀ e ∈ es, e.status ≠ s := by
  unfold getRangeByStatus
  simp [List.map_eq_nil_iff, List.filter_eq_nil_iff]

/-- In-bounds `getD` is list membership. -/
theorem getD_mem_of_lt {α : Type} [Inhabited α] {l : List α} {i : Nat}
    (h : i < l.length) (d : α) : l.getD i d ∈ l := by
  rw [List.getD_eq_getElem?_getD, List.getElem?_eq_getElem h]
  exact List.getElem_mem h

theorem statusOf_ne_of_range_nil {es : List Endpoint} {s : Status} {i : Nat}
    (hnil : getRangeByStatus es s = []) (hi : i < es.length) :
    statusOf es i ≠ s := by
  have := getRangeByStatus_eq_nil.mp hnil (es.getD i default)
    (getD_mem_of_lt hi default)
  exact this

theorem availableCount_eq_zero {es : List Endpoint} :
    availableCount es = 0 ↔
      getRangeByStatus es .online = [] ∧ getRangeByStatus es .undef = [] := by
  unfold availableCount
  constructor
  · intro h
    have h1 : (getRangeByStatus es .online).length = 0 := by omega
    have h2 : (getRangeByStatus es .undef).length = 0 := by omega
    exact ⟨List.length_eq_zero.mp h1, List.length_eq_zero.mp h2⟩
  · rintro ⟨h1, h2⟩
    rw [h1, h2]
    rfl

/-- Under `IdsOk` every status range is strictly increasing (registry
order is id order). -/
theorem getRangeByStatus_pairwise {es : List Endpoint} (h : IdsOk es)
    (s : Status) : (getRangeByStatus es s).Pairwise (· < ·) := by
  unfold getRangeByStatus
  have hsub : ((es.filter fun e => e.status = s).map fun e => e.id).Sublist
      (es.map fun e => e.id) :=
    (List.filter_sublist es).map _
  rw [h] at hsub
  exact List.Pairwise.sublist hsub (List.pairwise_lt_range es.length)

/-! ### Construction and update invariants -/

theorem initEndpoints_length (hosts : List String) :
    (initEndpoints hosts).length = hosts.length := by
  simp [initEndpoints]

theorem initEndpoints_idsOk (hosts : List String) :
    IdsOk (initEndpoints hosts) := by
  unfold IdsOk
  apply List.ext_getElem
  · simp [initEndpoints]
  · intro n h₁ h₂
    simp [initEndpoints, List.getElem_map, List.getElem_range]

theorem initEndpoints_status (hosts : List String) :
    ∀ e ∈ initEndpoints hosts, e.status = .undef := by
  intro e he
  unfold initEndpoints at he
  obtain ⟨i, _, rfl⟩ := List.mem_map.mp he
  rfl

theorem applyUpdate_priorities (st : BalancerState) (u : Update) :
    (applyUpdate st u).priorities = st.priorities := by
  cases u <;> rfl

theorem applyUpdate_roundRobinId (st : BalancerState) (u : Update) :
    (applyUpdate st u).roundRobinId = st.roundRobinId := by
  cases u <;> rfl

theorem applyUpdate_map_id (st : BalancerState) (u : Update) :
    (applyUpdate st u).endpoints.map (fun e => e.id) =
      st.endpoints.map (fun e => e.id) := by
  cases u <;>
    simp [applyUpdate, markHostOnline, markHostOffline, setStatus_map_id,
      resetOfflineStatuses_map_id]

theorem applyUpdate_length (st : BalancerState) (u : Update) :
    (applyUpdate st u).endpoints.length = st.endpoints.length := by
  cases u <;>
    simp [applyUpdate, markHostOnline, markHostOffline, setStatus_length,
      resetOfflineStatuses_length]

theorem applyUpdates_priorities (us : List Update) (st : BalancerState) :
    (applyUpdates us st).priorities = st.priorities := by
  induction us generalizing st with
  | nil => rfl
  | cons u us ih =>
    unfold applyUpdates at ih ⊢
    rw [List.foldl_cons, ih, applyUpdate_priorities]

theorem applyUpdates_roundRobinId (us : List Update) (st : BalancerState) :
    (applyUpdates us st).roundRobinId = st.roundRobinId := by
  induction us generalizing st with
  | nil => rfl
  | cons u us ih =>
    unfold applyUpdates at ih ⊢
    rw [List.foldl_cons, ih, applyUpdate_roundRobinId]

theorem applyUpdates_map_id (us : List Update) (st : BalancerState) :
    (applyUpdates us st).endpoints.map (fun e => e.id) =
      st.endpoints.map (fun e => e.id) := by
  induction us generalizing st with
  | nil => rfl
  | cons u us ih =>
    unfold applyUpdates at ih ⊢
    rw [List.foldl_cons, ih, applyUpdate_map_id]

theorem applyUpdates_length (us : List Update) (st : BalancerState) :
    (applyUpdates us st).endpoints.length = st.endpoints.length := by
  induction us generalizing st with
  | nil => rfl
  | cons u us ih =>
    unfold applyUpdates at ih ⊢
    rw [List.foldl_cons, ih, applyUpdate_length]

theorem applyUpdates_idsOk (us : List Update) (st : BalancerState)
    (h : IdsOk st.endpoints) : IdsOk (applyUpdates us st).endpoints := by
  unfold IdsOk at h ⊢
  rw [applyUpdates_map_id, applyUpdates_length, h]

/-! ### The scan of `getMostPriority` -/

/-- Characterisation of the scan in `getMostPriority` over a strictly
increasing id list: either nothing beat the initial minimum and the
accumulator is returned unchanged, or the result is the id of lowest index
realising the minimal priority — which, the list being sorted, is the
least id among the minimisers. -/
theorem mostPriority_foldl_spec (pri : Nat → Nat) (l : List Nat)
    (hsorted : l.Pairwise (· < ·)) :
    ∀ m i : Nat,
      (l.foldl (mostPriorityStep pri) (m, i) = (m, i) ∧ ∀ j ∈ l, m ≤ pri j) ∨
      ((l.foldl (mostPriorityStep pri) (m, i)).2 ∈ l ∧
        pri (l.foldl (mostPriorityStep pri) (m, i)).2 =
          (l.foldl (mostPriorityStep pri) (m, i)).1 ∧
        (l.foldl (mostPriorityStep pri) (m, i)).1 < m ∧
        (∀ j ∈ l, (l.foldl (mostPriorityStep pri) (m, i)).1 ≤ pri j) ∧
        (∀ j ∈ l, pri j = (l.foldl (mostPriorityStep pri) (m, i)).1 →
          (l.foldl (mostPriorityStep pri) (m, i)).2 ≤ j)) := by
  induction l with
  | nil => intro m i; left; exact ⟨rfl, by simp⟩
  | cons a t ih =>
    intro m i
    rw [List.pairwise_cons] at hsorted
    obtain ⟨ha, ht⟩ := hsorted
    rw [List.foldl_cons]
    by_cases hma : m > pri a
    · have hstep : mostPriorityStep pri (m, i) a = (pri a, a) := by
        unfold mostPriorityStep
        simp [hma]
      rw [hstep]
      rcases ih ht (pri a) a with ⟨heq, hall⟩ | ⟨hmem, hpri, hlt, hmin, htie⟩
      · right
        rw [heq]
        refine ⟨List.mem_cons_self a t, rfl, hma, ?_, ?_⟩
        · intro j hj
          rcases List.mem_cons.mp hj with rfl | hj
          · exact le_refl _
          · exact hall j hj
        · intro j hj _
          rcases List.mem_cons.mp hj with rfl | hj
          · exact le_refl _
          · exact le_of_lt (ha j hj)
      · right
        refine ⟨List.mem_cons_of_mem a hmem, hpri, lt_trans hlt hma, ?_, ?_⟩
        · intro j hj
          rcases List.mem_cons.mp hj with rfl | hj
          · exact le_of_lt hlt
          · exact hmin j hj
        · intro j hj hpj
          rcases List.mem_cons.mp hj with rfl | hj
          · exact absurd hpj (by omega)
          · exact htie j hj hpj
    · have hstep : mostPriorityStep pri (m, i) a = (m, i) := by
        unfold mostPriorityStep
        simp [hma]
      rw [hstep]
      rcases ih ht m i with ⟨heq, hall⟩ | ⟨hmem, hpri, hlt, hmin, htie⟩
      · left
        refine ⟨heq, ?_⟩
        intro j hj
        rcases List.mem_cons.mp hj with rfl | hj
        · omega
        · exact hall j hj
      · right
        refine ⟨List.mem_cons_of_mem a hmem, hpri, hlt, ?_, ?_⟩
        · intro j hj
          rcases List.mem_cons.mp hj with rfl | hj
          · omega
          · exact hmin j hj
        · intro j hj hpj
          rcases List.mem_cons.mp hj with rfl | hj
          · omega
          · exact htie j hj hpj

/-- The priorities actually read during a scan of a range, under the
registration invariant and a well-sized priority vector, are members of the
priority vector. -/
theorem pri_getD_mem {st : BalancerState} {j : Nat}
    (hids : IdsOk st.endpoints)
    (hlen : st.priorities.length = st.endpoints.length)
    {s : Status} (hj : j ∈ getRangeByStatus st.endpoints s) :
    st.priorities.getD j 0 ∈ st.priorities := by
  have hlt : j < st.endpoints.length := (statusOf_of_mem_range hids hj).1
  exact getD_mem_of_lt (by omega) 0

/-- `getMostPriority` full characterisation under the registration
invariant, a well-sized priority vector and priorities below the `size_t`
sentinel: it returns `none` exactly on an empty range, and otherwise the
member of the range with minimal priority, ties broken by lowest id. -/
theorem getMostPriority_spec (st : BalancerState) (s : Status)
    (hids : IdsOk st.endpoints)
    (hlen : st.priorities.length = st.endpoints.length)
    (hb : ∀ q ∈ st.priorities, q < SIZE_MAX) :
    (getRangeByStatus st.endpoints s = [] ∧ getMostPriority st s = none) ∨
    (∃ id, getMostPriority st s = some id ∧
      id ∈ getRangeByStatus st.endpoints s ∧
      (∀ j ∈ getRangeByStatus st.endpoints s,
        st.priorities.getD id 0 ≤ st.priorities.getD j 0) ∧
      (∀ j ∈ getRangeByStatus st.endpoints s,
        st.priorities.getD j 0 = st.priorities.getD id 0 → id ≤ j)) := by
  cases hr : getRangeByStatus st.endpoints s with
  | nil =>
    left
    refine ⟨rfl, ?_⟩
    unfold getMostPriority
    rw [hr]
    simp
  | cons a t =>
    right
    have hsorted := getRangeByStatus_pairwise hids s
    rw [hr] at hsorted
    have hspec := mostPriority_foldl_spec (fun id => st.priorities.getD id 0)
      (a :: t) hsorted SIZE_MAX st.endpoints.length
    rcases hspec with ⟨_, hall⟩ | ⟨hmem, hpri, _, hmin, htie⟩
    · exfalso
      have hamem : a ∈ getRangeByStatus st.endpoints s := by
        rw [hr]; exact List.mem_cons_self a t
      have h1 := hb _ (pri_getD_mem hids hlen hamem)
      have h2 := hall a (List.mem_cons_self a t)
      simp only at h2
      omega
    · have hmem' : ((a :: t).foldl
          (mostPriorityStep fun id => st.priorities.getD id 0)
          (SIZE_MAX, st.endpoints.length)).2 ∈
            getRangeByStatus st.endpoints s := by
        rw [hr]; exact hmem
      have hlt := (statusOf_of_mem_range hids hmem').1
      refine ⟨_, ?_, hmem, ?_, ?_⟩
      · unfold getMostPriority
        rw [hr]
        simp only []
        rw [if_neg (Nat.ne_of_lt hlt)]
      · intro j hj
        rw [hpri]
        exact hmin j hj
      · intro j hj hpj
        exact htie j hj (by rw [hpj, hpri])

/-! ### Selection facts shared by the policies -/

theorem asOptimalEndpoint_id (st : BalancerState) (k : Nat) :
    (asOptimalEndpoint st k).id = k := rfl

theorem asTemporaryEndpoint_id (st : BalancerState) (k : Nat) :
    (asTemporaryEndpoint st k).id = k := rfl

theorem asOptimalEndpoint_fallback (st : BalancerState) (k : Nat) :
    (asOptimalEndpoint st k).settings.use_fallback_session_lifetime = false :=
  rfl

theorem asTemporaryEndpoint_fallback (st : BalancerState) (k : Nat) :
    (asTemporaryEndpoint st k).settings.use_fallback_session_lifetime = true :=
  rfl

theorem getHostWithSetting_id (st : BalancerState) (k : Nat) :
    (getHostWithSetting st k).id = k := by
  unfold getHostWithSetting
  split <;> rfl

theorem getD_mod_mem {l : List Nat} (h : l ≠ []) (r : Nat) :
    l.getD (r % l.length) 0 ∈ l := by
  have hl : 0 < l.length := List.length_pos.mpr h
  exact getD_mem_of_lt (Nat.mod_lt r hl) 0

/-- The conjunction claimed for every policy: a successful selection names
an endpoint that is currently `ONLINE` or `UNDEF`; the
`ALL_CONNECTION_TRIES_FAILED` failure happens exactly when no endpoint is
`ONLINE` or `UNDEF`, and only after every `OFFLINE` endpoint was reset to
`UNDEF`. -/
def selectsAvailableOrFails (p : Policy) (st : BalancerState) (rand : Nat) :
    Prop :=
  (∀ info st', getHostToConnect p st rand = .ok info st' →
     statusOf st.endpoints info.id = .online ∨
     statusOf st.endpoints info.id = .undef) ∧
  (∀ st', getHostToConnect p st rand = .allTriesFailed st' →
     availableCount st.endpoints = 0 ∧
     st'.endpoints = resetOfflineStatuses st.endpoints) ∧
  (availableCount st.endpoints = 0 →
     getHostToConnect p st rand =
       .allTriesFailed { st with endpoints := resetOfflineStatuses st.endpoints })

theorem random_selects (st : BalancerState) (rand : Nat)
    (hids : IdsOk st.endpoints) :
    selectsAvailableOrFails .random st rand := by
  have hd : getHostToConnect .random st rand = randomGetHostToConnect st rand :=
    rfl
  unfold selectsAvailableOrFails
  rw [hd]
  cases hon : getRangeByStatus st.endpoints .online with
  | cons a t =>
    have hresult : randomGetHostToConnect st rand =
        .ok (randomGetHostFrom st (a :: t) rand) st := by
      simp only [randomGetHostToConnect]
      rw [hon]
      rfl
    refine ⟨?_, ?_, ?_⟩
    · intro info st' heq
      rw [hresult] at heq
      cases heq
      left
      have hmem : (a :: t).getD (rand % (a :: t).length) 0 ∈
          getRangeByStatus st.endpoints .online := by
        rw [hon]
        exact getD_mod_mem (by simp) rand
      exact (statusOf_of_mem_range hids hmem).2
    · intro st' heq
      rw [hresult] at heq
      exact absurd heq (by simp)
    · intro hav
      have := (availableCount_eq_zero.mp hav).1
      rw [hon] at this
      exact absurd this (by simp)
  | nil =>
    cases hun : getRangeByStatus st.endpoints .undef with
    | cons a t =>
      have hresult : randomGetHostToConnect st rand =
          .ok (randomGetHostFrom st (a :: t) rand) st := by
        simp only [randomGetHostToConnect]
        rw [hon, hun]
        rfl
      refine ⟨?_, ?_, ?_⟩
      · intro info st' heq
        rw [hresult] at heq
        cases heq
        right
        have hmem : (a :: t).getD (rand % (a :: t).length) 0 ∈
            getRangeByStatus st.endpoints .undef := by
          rw [hun]
          exact getD_mod_mem (by simp) rand
        exact (statusOf_of_mem_range hids hmem).2
      · intro st' heq
        rw [hresult] at heq
        exact absurd heq (by simp)
      · intro hav
        have := (availableCount_eq_zero.mp hav).2
        rw [hun] at this
        exact absurd this (by simp)
    | nil =>
      have hresult : randomGetHostToConnect st rand =
          .allTriesFailed
            { st with endpoints := resetOfflineStatuses st.endpoints } := by
        simp only [randomGetHostToConnect]
        rw [hon, hun]
        rfl
      refine ⟨?_, ?_, ?_⟩
      · intro info st' heq
        rw [hresult] at heq
        exact absurd heq (by simp)
      · intro st' heq
        rw [hresult] at heq
        cases heq
        exact ⟨availableCount_eq_zero.mpr ⟨hon, hun⟩, rfl⟩
      · intro _
        exact hresult

theorem priorities_selects (st : BalancerState) (rand : Nat)
    (hids : IdsOk st.endpoints)
    (hlen : st.priorities.length = st.endpoints.length)
    (hb : ∀ q ∈ st.priorities, q < SIZE_MAX) :
    selectsAvailableOrFails .priorities st rand := by
  have hd : getHostToConnect .priorities st rand =
      prioritiesGetHostToConnect st := rfl
  unfold selectsAvailableOrFails
  rw [hd]
  rcases getMostPriority_spec st .online hids hlen hb with
    ⟨honr, hon⟩ | ⟨id, hon, hmem, _, _⟩
  · rcases getMostPriority_spec st .undef hids hlen hb with
      ⟨hunr, hun⟩ | ⟨id, hun, hmem, _, _⟩
    · have hresult : prioritiesGetHostToConnect st =
          .allTriesFailed
            { st with endpoints := resetOfflineStatuses st.endpoints } := by
        unfold prioritiesGetHostToConnect
        rw [hon, hun]
      refine ⟨?_, ?_, ?_⟩
      · intro info st' heq
        rw [hresult] at heq
        exact absurd heq (by simp)
      · intro st' heq
        rw [hresult] at heq
        cases heq
        exact ⟨availableCount_eq_zero.mpr ⟨honr, hunr⟩, rfl⟩
      · intro _
        exact hresult
    · have hresult : prioritiesGetHostToConnect st =
          .ok (getHostWithSetting st id) st := by
        unfold prioritiesGetHostToConnect
        rw [hon, hun]
      refine ⟨?_, ?_, ?_⟩
      · intro info st' heq
        rw [hresult] at heq
        cases heq
        right
        rw [getHostWithSetting_id]
        exact (statusOf_of_mem_range hids hmem).2
      · intro st' heq
        rw [hresult] at heq
        exact absurd heq (by simp)
      · intro hav
        have := (availableCount_eq_zero.mp hav).2
        rw [this] at hmem
        exact absurd hmem (List.not_mem_nil id)
  · have hresult : prioritiesGetHostToConnect st =
        .ok (getHostWithSetting st id) st := by
      unfold prioritiesGetHostToConnect
      rw [hon]
    refine ⟨?_, ?_, ?_⟩
    · intro info st' heq
      rw [hresult] at heq
      cases heq
      left
      rw [getHostWithSetting_id]
      exact (statusOf_of_mem_range hids hmem).2
    · intro st' heq
      rw [hresult] at heq
      exact absurd heq (by simp)
    · intro hav
      have := (availableCount_eq_zero.mp hav).1
      rw [this] at hmem
      exact absurd hmem (List.not_mem_nil id)

theorem roundRobin_selects (st : BalancerState) (rand : Nat)
    (hids : IdsOk st.endpoints)
    (hcur : st.roundRobinId < st.endpoints.length) :
    selectsAvailableOrFails .roundRobin st rand := by
  have hd : getHostToConnect .roundRobin st rand =
      roundRobinGetHostToConnect st := rfl
  unfold selectsAvailableOrFails
  rw [hd]
  by_cases hrs1 : statusOf st.endpoints st.roundRobinId = .online
  · have hresult : roundRobinGetHostToConnect st =
        .ok (selectEndpoint st st.roundRobinId).1
          (selectEndpoint st st.roundRobinId).2 := by
      simp only [roundRobinGetHostToConnect]
      rw [if_pos hrs1]
    refine ⟨?_, ?_, ?_⟩
    · intro info st' heq
      rw [hresult] at heq
      cases heq
      left
      exact hrs1
    · intro st' heq
      rw [hresult] at heq
      exact absurd heq (by simp)
    · intro hav
      exfalso
      exact statusOf_ne_of_range_nil (availableCount_eq_zero.mp hav).1 hcur hrs1
  · cases hon : getRangeByStatus st.endpoints .online with
    | cons a t =>
      have hresult : roundRobinGetHostToConnect st =
          .ok (selectEndpoint st a).1 (selectEndpoint st a).2 := by
        simp only [roundRobinGetHostToConnect]
        rw [if_neg hrs1, hon]
        rfl
      refine ⟨?_, ?_, ?_⟩
      · intro info st' heq
        rw [hresult] at heq
        cases heq
        left
        have hmem : a ∈ getRangeByStatus st.endpoints .online := by
          rw [hon]
          exact List.mem_cons_self a t
        exact (statusOf_of_mem_range hids hmem).2
      · intro st' heq
        rw [hresult] at heq
        exact absurd heq (by simp)
      · intro hav
        have := (availableCount_eq_zero.mp hav).1
        rw [hon] at this
        exact absurd this (by simp)
    | nil =>
      by_cases hrs2 : statusOf st.endpoints st.roundRobinId = .undef
      · have hresult : roundRobinGetHostToConnect st =
            .ok (asOptimalEndpoint st st.roundRobinId) st := by
          simp only [roundRobinGetHostToConnect]
          rw [if_neg hrs1, hon]
          simp [hrs2]
        refine ⟨?_, ?_, ?_⟩
        · intro info st' heq
          rw [hresult] at heq
          cases heq
          right
          exact hrs2
        · intro st' heq
          rw [hresult] at heq
          exact absurd heq (by simp)
        · intro hav
          exfalso
          exact statusOf_ne_of_range_nil (availableCount_eq_zero.mp hav).2
            hcur hrs2
      · cases hun : getRangeByStatus st.endpoints .undef with
        | cons a t =>
          have hresult : roundRobinGetHostToConnect st =
              .ok (selectEndpoint st a).1 (selectEndpoint st a).2 := by
            simp only [roundRobinGetHostToConnect]
            rw [if_neg hrs1, hon]
            simp only [List.isEmpty_nil, if_true]
            rw [if_neg hrs2, hun]
            rfl
          refine ⟨?_, ?_, ?_⟩
          · intro info st' heq
            rw [hresult] at heq
            cases heq
            right
            have hmem : a ∈ getRangeByStatus st.endpoints .undef := by
              rw [hun]
              exact List.mem_cons_self a t
            exact (statusOf_of_mem_range hids hmem).2
          · intro st' heq
            rw [hresult] at heq
            exact absurd heq (by simp)
          · intro hav
            have := (availableCount_eq_zero.mp hav).2
            rw [hun] at this
            exact absurd this (by simp)
        | nil =>
          have hresult : roundRobinGetHostToConnect st =
              .allTriesFailed
                { st with endpoints := resetOfflineStatuses st.endpoints } := by
            simp only [roundRobinGetHostToConnect]
            rw [if_neg hrs1, hon]
            simp only [List.isEmpty_nil, if_true]
            rw [if_neg hrs2, hun]
            rfl
          refine ⟨?_, ?_, ?_⟩
          · intro info st' heq
            rw [hresult] at heq
            exact absurd heq (by simp)
          · intro st' heq
            rw [hresult] at heq
            cases heq
            exact ⟨availableCount_eq_zero.mpr ⟨hon, hun⟩, rfl⟩
          · intro _
            exact hresult

theorem firstOrRandom_selects (st : BalancerState) (rand : Nat)
    (hids : IdsOk st.endpoints) (hne : 0 < st.endpoints.length) :
    selectsAvailableOrFails .firstOrRandom st rand := by
  have hd : getHostToConnect .firstOrRandom st rand =
      firstOrRandomGetHostToConnect st rand := rfl
  unfold selectsAvailableOrFails
  rw [hd]
  by_cases hrs1 : statusOf st.endpoints 0 = .online
  · have hresult : firstOrRandomGetHostToConnect st rand =
        .ok (asOptimalEndpoint st 0) st := by
      simp only [firstOrRandomGetHostToConnect]
      rw [if_pos hrs1]
    refine ⟨?_, ?_, ?_⟩
    · intro info st' heq
      rw [hresult] at heq
      cases heq
      left
      exact hrs1
    · intro st' heq
      rw [hresult] at heq
      exact absurd heq (by simp)
    · intro hav
      exfalso
      exact statusOf_ne_of_range_nil (availableCount_eq_zero.mp hav).1 hne hrs1
  · cases hon : getRangeByStatus st.endpoints .online with
    | cons a t =>
      have hresult : firstOrRandomGetHostToConnect st rand =
          .ok (firstOrRandomGetHostFrom st (a :: t) rand) st := by
        simp only [firstOrRandomGetHostToConnect]
        rw [if_neg hrs1, hon]
        rfl
      refine ⟨?_, ?_, ?_⟩
      · intro info st' heq
        rw [hresult] at heq
        cases heq
        left
        have hmem : (a :: t).getD (rand % (a :: t).length) 0 ∈
            getRangeByStatus st.endpoints .online := by
          rw [hon]
          exact getD_mod_mem (by simp) rand
        exact (statusOf_of_mem_range hids hmem).2
      · intro st' heq
        rw [hresult] at heq
        exact absurd heq (by simp)
      · intro hav
        have := (availableCount_eq_zero.mp hav).1
        rw [hon] at this
        exact absurd this (by simp)
    | nil =>
      by_cases hrs2 : statusOf st.endpoints 0 = .undef
      · have hresult : firstOrRandomGetHostToConnect st rand =
            .ok (asOptimalEndpoint st 0) st := by
          simp only [firstOrRandomGetHostToConnect]
          rw [if_neg hrs1, hon]
          simp [hrs2]
        refine ⟨?_, ?_, ?_⟩
        · intro info st' heq
          rw [hresult] at heq
          cases heq
          right
          exact hrs2
        · intro st' heq
          rw [hresult] at heq
          exact absurd heq (by simp)
        · intro hav
          exfalso
          exact statusOf_ne_of_range_nil (availableCount_eq_zero.mp hav).2
            hne hrs2
      · cases hun : getRangeByStatus st.endpoints .undef with
        | cons a t =>
          have hresult : firstOrRandomGetHostToConnect st rand =
              .ok (firstOrRandomGetHostFrom st (a :: t) rand) st := by
            simp only [firstOrRandomGetHostToConnect]
            rw [if_neg hrs1, hon]
            simp only [List.isEmpty_nil, if_true]
            rw [if_neg hrs2, hun]
            rfl
          refine ⟨?_, ?_, ?_⟩
          · intro info st' heq
            rw [hresult] at heq
            cases heq
            right
            have hmem : (a :: t).getD (rand % (a :: t).length) 0 ∈
                getRangeByStatus st.endpoints .undef := by
              rw [hun]
              exact getD_mod_mem (by simp) rand
            exact (statusOf_of_mem_range hids hmem).2
          · intro st' heq
            rw [hresult] at heq
            exact absurd heq (by simp)
          · intro hav
            have := (availableCount_eq_zero.mp hav).2
            rw [hun] at this
            exact absurd this (by simp)
        | nil =>
          have hresult : firstOrRandomGetHostToConnect st rand =
              .allTriesFailed
                { st with endpoints := resetOfflineStatuses st.endpoints } := by
            simp only [firstOrRandomGetHostToConnect]
            rw [if_neg hrs1, hon]
            simp only [List.isEmpty_nil, if_true]
            rw [if_neg hrs2, hun]
            rfl
          refine ⟨?_, ?_, ?_⟩
          · intro info st' heq
            rw [hresult] at heq
            exact absurd heq (by simp)
          · intro st' heq
            rw [hresult] at heq
            cases heq
            exact ⟨availableCount_eq_zero.mpr ⟨hon, hun⟩, rfl⟩
          · intro _
            exact hresult

/-! ### Claim theorems -/

/-- C1.  For every load-balancing policy, every priority calculator (its
values below the `size_t` sentinel, as the three calculators of the source
are on any real host list), and every sequence of
`markHostOnline` / `markHostOffline` / `resetOfflineStatuses` updates,
`getHostToConnect` either returns an endpoint whose current status is
`ONLINE` or `UNDEF`, or — exactly when no endpoint is `ONLINE` or `UNDEF` —
first resets every `OFFLINE` endpoint to `UNDEF` and then raises
`ALL_CONNECTION_TRIES_FAILED`. -/
theorem getHostToConnect_available_or_fails (p : Policy)
    (hosts : List String) (priCalc : Endpoint → Nat) (upds : List Update)
    (rand : Nat) (hne : hosts ≠ [])
    (hb : ∀ e ∈ initEndpoints hosts, priCalc e < SIZE_MAX) :
    selectsAvailableOrFails p
      (applyUpdates upds (initState hosts priCalc)) rand := by
  have hids : IdsOk (applyUpdates upds (initState hosts priCalc)).endpoints :=
    applyUpdates_idsOk upds (initState hosts priCalc)
      (initEndpoints_idsOk hosts)
  have hlength : (applyUpdates upds (initState hosts priCalc)).endpoints.length
      = hosts.length := by
    rw [applyUpdates_length]
    exact initEndpoints_length hosts
  have hpos : 0 < (applyUpdates upds (initState hosts priCalc)).endpoints.length := by
    rw [hlength]
    exact List.length_pos.mpr hne
  cases p with
  | random => exact random_selects _ rand hids
  | priorities =>
    apply priorities_selects _ rand hids
    · rw [applyUpdates_priorities, applyUpdates_length]
      exact List.length_map _ _
    · rw [applyUpdates_priorities]
      intro q hq
      obtain ⟨e, he, rfl⟩ := List.mem_map.mp hq
      exact hb e he
  | roundRobin =>
    apply roundRobin_selects _ rand hids
    rw [applyUpdates_roundRobinId]
    exact hpos
  | firstOrRandom => exact firstOrRandom_selects _ rand hids hpos

/-- Witness for C1 at a concrete input: two hosts, the first marked offline,
selection by the priority policy with the in-order calculator. -/
theorem getHostToConnect_available_or_fails_witness :
    (["h1:2181", "h2:2181"] ≠ ([] : List String)) ∧
    (∀ e ∈ initEndpoints ["h1:2181", "h2:2181"],
      (fun e : Endpoint => e.id) e < SIZE_MAX) ∧
    selectsAvailableOrFails .priorities
      (applyUpdates [.markOffline 0]
        (initState ["h1:2181", "h2:2181"] (fun e => e.id))) 0 :=
  ⟨by decide, by decide,
    getHostToConnect_available_or_fails .priorities ["h1:2181", "h2:2181"]
      (fun e => e.id) [.markOffline 0] 0 (by decide) (by decide)⟩

/-- The frame property of one selection: on success the registry (addresses,
secure flags, ids, statuses) and the priority vector are untouched — only
the round-robin cursor may move, and only for the round-robin policy; on
failure the statuses change exactly by `resetOfflineStatuses`. -/
def selectionFrame (p : Policy) (st : BalancerState) (rand : Nat) : Prop :=
  (∀ info st', getHostToConnect p st rand = .ok info st' →
     st'.endpoints = st.endpoints ∧ st'.priorities = st.priorities ∧
     (p ≠ .roundRobin → st' = st)) ∧
  (∀ st', getHostToConnect p st rand = .allTriesFailed st' →
     st'.endpoints = resetOfflineStatuses st.endpoints ∧
     st'.priorities = st.priorities ∧ st'.roundRobinId = st.roundRobinId)

/-- C10.  For every policy, the success path of `getHostToConnect` leaves
every endpoint (address, secure flag, id, status) and the priority vector
unchanged; only the round-robin cursor may change.  Statuses are mutated by
selection only on the failure path, via `resetOfflineStatuses`. -/
theorem getHostToConnect_frame (p : Policy) (st : BalancerState) (rand : Nat) :
    selectionFrame p st rand := by
  unfold selectionFrame
  refine ⟨?_, ?_⟩
  · intro info st' heq
    cases p <;>
      simp only [getHostToConnect, randomGetHostToConnect,
        prioritiesGetHostToConnect, roundRobinGetHostToConnect,
        firstOrRandomGetHostToConnect] at heq <;>
      repeat' split at heq
    all_goals try cases heq
    all_goals refine ⟨rfl, rfl, fun hp => ?_⟩
    all_goals first
      | rfl
      | exact absurd rfl hp
  · intro st' heq
    cases p <;>
      simp only [getHostToConnect, randomGetHostToConnect,
        prioritiesGetHostToConnect, roundRobinGetHostToConnect,
        firstOrRandomGetHostToConnect] at heq <;>
      repeat' split at heq
    all_goals try cases heq
    all_goals exact ⟨rfl, rfl, rfl⟩

/-- What C8 claims of `resetOfflineStatuses`: it turns exactly the `OFFLINE`
statuses into `UNDEF`, and after `markHostOffline i; resetOfflineStatuses()`
endpoint `i` is `UNDEF`. -/
def resetOfflineSpec (es : List Endpoint) (i : Nat) : Prop :=
  (∀ k, k < es.length →
     statusOf (resetOfflineStatuses es) k =
       (if statusOf es k = .offline then .undef else statusOf es k)) ∧
  (statusOf (resetOfflineStatuses (markHostOffline es i)) i = .undef)

/-- C8.  `resetOfflineStatuses` sets every `OFFLINE` endpoint to `UNDEF` and
leaves `ONLINE` and `UNDEF` endpoints unchanged; in particular, after
`markHostOffline i` followed by `resetOfflineStatuses`, endpoint `i` is
`UNDEF`. -/
theorem resetOfflineStatuses_spec (es : List Endpoint) (i : Nat)
    (hi : i < es.length) : resetOfflineSpec es i := by
  constructor
  · intro k hk
    unfold statusOf resetOfflineStatuses
    rw [List.getD_eq_getElem?_getD, List.getElem?_eq_getElem (by simpa using hk)]
    rw [List.getD_eq_getElem?_getD, List.getElem?_eq_getElem hk]
    simp only [Option.getD_some, List.getElem_map]
    by_cases h : es[k].status = .offline <;> simp [h]
  · have hset : markHostOffline es i =
        es.set i { es[i] with status := .offline } := by
      unfold markHostOffline setStatus
      rw [List.get?_eq_getElem?, List.getElem?_eq_getElem hi]
    rw [hset]
    have hi' : i < (es.set i { es[i] with status := .offline }).length := by
      simpa using hi
    unfold statusOf resetOfflineStatuses
    rw [List.getD_eq_getElem?_getD, List.getElem?_eq_getElem (by simpa using hi)]
    simp only [Option.getD_some, List.getElem_map, List.getElem_set_self]
    simp

/-- Witness for C8 at a concrete registry. -/
theorem resetOfflineStatuses_spec_witness :
    0 < ([⟨"h1:2181", false, 0, .online⟩] : List Endpoint).length ∧
    resetOfflineSpec [⟨"h1:2181", false, 0, .online⟩] 0 :=
  ⟨by decide, resetOfflineStatuses_spec [⟨"h1:2181", false, 0, .online⟩] 0
    (by decide)⟩

/-- What C6 claims of the priority-ordered policy: among `ONLINE` endpoints
(else among `UNDEF` endpoints) the one with minimal priority is selected,
ties broken by lowest id; consequently an `ONLINE` endpoint with strictly
larger priority than another `ONLINE` endpoint is never returned. -/
def prioritySelectionSpec (st : BalancerState) : Prop :=
  (getRangeByStatus st.endpoints .online ≠ [] →
    ∃ id st', getHostToConnect .priorities st 0 =
        .ok (getHostWithSetting st id) st' ∧
      id ∈ getRangeByStatus st.endpoints .online ∧
      (∀ j ∈ getRangeByStatus st.endpoints .online,
        st.priorities.getD id 0 ≤ st.priorities.getD j 0) ∧
      (∀ j ∈ getRangeByStatus st.endpoints .online,
        st.priorities.getD j 0 = st.priorities.getD id 0 → id ≤ j)) ∧
  (getRangeByStatus st.endpoints .online = [] →
    getRangeByStatus st.endpoints .undef ≠ [] →
    ∃ id st', getHostToConnect .priorities st 0 =
        .ok (getHostWithSetting st id) st' ∧
      id ∈ getRangeByStatus st.endpoints .undef ∧
      (∀ j ∈ getRangeByStatus st.endpoints .undef,
        st.priorities.getD id 0 ≤ st.priorities.getD j 0) ∧
      (∀ j ∈ getRangeByStatus st.endpoints .undef,
        st.priorities.getD j 0 = st.priorities.getD id 0 → id ≤ j)) ∧
  (∀ a b, a ∈ getRangeByStatus st.endpoints .online →
    b ∈ getRangeByStatus st.endpoints .online →
    st.priorities.getD a 0 < st.priorities.getD b 0 →
    ∀ info st', getHostToConnect .priorities st 0 = .ok info st' →
      info.id ≠ b)

/-- C6.  For the priority-ordered policy, `getHostToConnect` selects among
`ONLINE` endpoints (or, if none is `ONLINE`, among `UNDEF` endpoints) the
endpoint with minimum priority value, breaking priority ties by lowest id;
consequently, for two `ONLINE` endpoints `a`, `b` with
`priority a < priority b`, it never returns `b`. -/
theorem priority_policy_min_selection (st : BalancerState)
    (hids : IdsOk st.endpoints)
    (hlen : st.priorities.length = st.endpoints.length)
    (hb : ∀ q ∈ st.priorities, q < SIZE_MAX) :
    prioritySelectionSpec st := by
  unfold prioritySelectionSpec
  rcases getMostPriority_spec st .online hids hlen hb with
    ⟨honr, hon⟩ | ⟨id, hon, hmem, hmin, htie⟩
  · refine ⟨fun h => absurd honr h, ?_, ?_⟩
    · intro _ hunr
      rcases getMostPriority_spec st .undef hids hlen hb with
        ⟨hunr', _⟩ | ⟨id, hun, hmem, hmin, htie⟩
      · exact absurd hunr' hunr
      · have hresult : getHostToConnect .priorities st 0 =
            .ok (getHostWithSetting st id) st := by
          show prioritiesGetHostToConnect st = _
          unfold prioritiesGetHostToConnect
          rw [hon, hun]
        exact ⟨id, st, hresult, hmem, hmin, htie⟩
    · intro a b ha _ _ _ _ _
      rw [honr] at ha
      exact absurd ha (List.not_mem_nil a)
  · have hresult : getHostToConnect .priorities st 0 =
        .ok (getHostWithSetting st id) st := by
      show prioritiesGetHostToConnect st = _
      unfold prioritiesGetHostToConnect
      rw [hon]
    refine ⟨fun _ => ⟨id, st, hresult, hmem, hmin, htie⟩, ?_, ?_⟩
    · intro honr
      rw [honr] at hmem
      exact absurd hmem (List.not_mem_nil id)
    · intro a b ha hbmem hab info st' heq
      rw [hresult] at heq
      cases heq
      rw [getHostWithSetting_id]
      intro hidb
      subst hidb
      have := hmin a ha
      omega

/-- Witness for C6 at a concrete registry: statuses
`[OFFLINE, ONLINE, ONLINE]`, priorities `[0, 2, 1]`. -/
theorem priority_policy_min_selection_witness :
    prioritySelectionSpec
      { endpoints := [⟨"h1:2181", false, 0, .offline⟩,
                      ⟨"h2:2181", false, 1, .online⟩,
                      ⟨"h3:2181", false, 2, .online⟩],
        priorities := [0, 2, 1], roundRobinId := 0 } :=
  priority_policy_min_selection _ (by decide) (by decide) (by decide)

/-- `isOptimalEndpoint` as the spec words it (C2): the selected endpoint's
priority equals the minimum priority over all endpoints.  Kept separate for
comparison with the source's `isOptimalEndpoint`, which compares against
`priorities[0]` because `std::min` is applied to the two iterators rather
than `std::min_element` to the range. -/
def isOptimalEndpointSpec (st : BalancerState) (id : Nat) : Bool :=
  decide (∀ q ∈ st.priorities, st.priorities.getD id 0 ≤ q)

/-- Registry exhibiting the C2 divergence: both endpoints `ONLINE`,
priorities `[5, 3]`. -/
def stPrioBug : BalancerState :=
  { endpoints := [⟨"h1:2181", false, 0, .online⟩,
                  ⟨"h2:2181", false, 1, .online⟩],
    priorities := [5, 3], roundRobinId := 0 }

/-- C2, evaluated at the failing input.  The priority policy selects
endpoint 1, whose priority 3 is the minimum over all endpoints, yet the
returned `EndpointInfo` carries `use_fallback_session_lifetime = true`:
the source's `isOptimalEndpoint` compares against `priorities[0] = 5`
instead of the minimum, so the claimed iff fails. -/
theorem priority_fallback_hint_wrong :
    getHostToConnect .priorities stPrioBug 0 =
      .ok { address := "h2:2181", secure := false, id := 1,
            settings := { use_fallback_session_lifetime := true } }
        stPrioBug ∧
    isOptimalEndpointSpec stPrioBug 1 = true ∧
    isOptimalEndpoint stPrioBug 1 = false := by
  refine ⟨?_, by decide, by decide⟩
  decide

/-- Registry exhibiting the C3 divergence: both endpoints `UNDEF`,
priorities `[0, 1]`. -/
def stWorth : BalancerState :=
  { endpoints := [⟨"h1:2181", false, 0, .undef⟩,
                  ⟨"h2:2181", false, 1, .undef⟩],
    priorities := [0, 1], roundRobinId := 0 }

/-- C3, evaluated at the failing input.  With `current = 0` supplied, no
endpoint has priority strictly below `priorities[0] = 0`, so the claim
demands the empty list; the code returns every `UNDEF`/`OFFLINE` endpoint
(the `||` short-circuits the filter to true).  With no current id the code
reads `priorities[2]`, one past the end (`none` marks the out-of-bounds
read), where the claim demands all `UNDEF`/`OFFLINE` endpoints. -/
theorem endpointsWorthChecking_filter_inverted :
    endpointsWorthChecking stWorth (some 0) =
      some [getHostWithSetting stWorth 0, getHostWithSetting stWorth 1] ∧
    (∀ e ∈ stWorth.endpoints,
      ¬ stWorth.priorities.getD e.id 0 < stWorth.priorities.getD 0 0) ∧
    endpointsWorthChecking stWorth none = none := by
  refine ⟨by decide, by decide, by decide⟩

/-- Registry for C9: a single endpoint, still `UNDEF`. -/
def stOneHost : BalancerState := initState ["h1:2181"] (fun e => e.id)

/-- C9, evaluated at the failing input.  `endpointsWorthChecking` with no
current endpoint id sets `current = getEndpointsCount() = 1` and, because
`current_id_set` is false, evaluates `priorities[endpoint] < priorities[1]`
for the `UNDEF` endpoint `0` — an access one past the end of the priority
vector (`none` in the total embedding). -/
theorem endpointsWorthChecking_oob_read :
    endpointsWorthChecking stOneHost none = none ∧
    stOneHost.priorities.get? stOneHost.endpoints.length = none := by
  refine ⟨by decide, by decide⟩

/-- C4, evaluated at the failing input: one host whose DNS probe always
fails with host-not-found (second conjunct: with a transient DNS error).
After the endpoint is marked offline, the next `getHostToConnect` throws
`ALL_CONNECTION_TRIES_FAILED`, and `createClient` lets it escape
untranslated — it produces neither of the two `ZCONNECTIONLOSS` errors of
`throwWhenNoHostAvailable`, whose only call site is commented out. -/
theorem createClient_sentinel_escapes :
    createClient .random (initState ["h1:2181"] (fun e => e.id))
      (fun _ => .hostNotFound) (fun _ => false) (fun _ => 0) 3 =
        .allTriesFailedErr ∧
    createClient .random (initState ["h1:2181"] (fun e => e.id))
      (fun _ => .dnsError) (fun _ => false) (fun _ => 0) 3 =
        .allTriesFailedErr ∧
    (ClientResult.allTriesFailedErr ≠ throwWhenNoHostAvailable true) ∧
    (ClientResult.allTriesFailedErr ≠ throwWhenNoHostAvailable false) := by
  refine ⟨by decide, by decide, by decide, by decide⟩

/-! ### Status-update lemmas used by the round-robin trace -/

theorem setStatus_eq_set {es : List Endpoint} {i : Nat} (hi : i < es.length)
    (s : Status) :
    setStatus es i s = es.set i { es[i] with status := s } := by
  unfold setStatus
  rw [List.get?_eq_getElem?, List.getElem?_eq_getElem hi]

theorem statusOf_setStatus_self {es : List Endpoint} {i : Nat}
    (hi : i < es.length) (s : Status) :
    statusOf (setStatus es i s) i = s := by
  rw [setStatus_eq_set hi]
  unfold statusOf
  rw [List.getD_eq_getElem?_getD, List.getElem?_eq_getElem (by simpa using hi)]
  simp [List.getElem_set_self]

theorem statusOf_setStatus_other {es : List Endpoint} {i j : Nat}
    (hij : i ≠ j) (s : Status) :
    statusOf (setStatus es i s) j = statusOf es j := by
  unfold setStatus
  cases h : es.get? i with
  | none => rfl
  | some e =>
    unfold statusOf
    rw [List.getD_eq_getElem?_getD, List.getD_eq_getElem?_getD]
    by_cases hj : j < es.length
    · rw [List.getElem?_eq_getElem (by simpa using hj),
        List.getElem?_eq_getElem hj]
      simp only [Option.getD_some]
      rw [List.getElem_set, if_neg hij]
    · rw [List.getElem?_eq_none (by simp; omega), List.getElem?_eq_none (by omega)]

theorem statusOf_undef_of_all {es : List Endpoint}
    (hQ : ∀ e ∈ es, e.status = .undef) (c : Nat) :
    statusOf es c = .undef := by
  by_cases hc : c < es.length
  · exact hQ _ (getD_mem_of_lt hc default)
  · unfold statusOf
    rw [List.getD_eq_getElem?_getD, List.getElem?_eq_none (by omega)]
    rfl

theorem IdsOk.getD_id {es : List Endpoint} (h : IdsOk es) {i : Nat}
    (hi : i < es.length) : (es.getD i default).id = i := by
  have h1 : (es.map (fun e => e.id))[i]? = some i := by
    rw [h, List.getElem?_eq_getElem (by simpa using hi), List.getElem_range]
  rw [List.getElem?_map, List.getElem?_eq_getElem hi] at h1
  rw [List.getD_eq_getElem?_getD, List.getElem?_eq_getElem hi]
  exact Option.some.inj h1

theorem mem_range_of_statusOf {es : List Endpoint} (hids : IdsOk es) {i : Nat}
    (hi : i < es.length) {s : Status} (hs : statusOf es i = s) :
    i ∈ getRangeByStatus es s :=
  mem_getRangeByStatus.mpr ⟨es.getD i default, getD_mem_of_lt hi default,
    hids.getD_id hi, hs⟩

theorem sorted_all_zero_eq {l : List Nat} (hs : l.Pairwise (· < ·))
    (h0 : 0 ∈ l) (hall : ∀ x ∈ l, x = 0) : l = [0] := by
  cases l with
  | nil => cases h0
  | cons a t =>
    have ha : a = 0 := hall a (List.mem_cons_self a t)
    subst ha
    cases t with
    | nil => rfl
    | cons b u =>
      have hb : b = 0 := hall b (by simp)
      rw [List.pairwise_cons] at hs
      have := hs.1 b (by simp)
      omega

/-- Registry shape reached by the round-robin protocol of C5 after the
first iteration: endpoint `0` is `ONLINE` and every other endpoint is still
`UNDEF`. -/
def SoloOnline (es : List Endpoint) : Prop :=
  IdsOk es ∧ 0 < es.length ∧ statusOf es 0 = .online ∧
    ∀ k, k ≠ 0 → statusOf es k = .undef

theorem range_online_solo {es : List Endpoint} (h : SoloOnline es) :
    getRangeByStatus es .online = [0] := by
  obtain ⟨hids, hpos, h0, hrest⟩ := h
  apply sorted_all_zero_eq (getRangeByStatus_pairwise hids .online)
  · exact mem_range_of_statusOf hids hpos h0
  · intro x hx
    by_contra hne
    have hon := (statusOf_of_mem_range hids hx).2
    rw [hrest x hne] at hon
    exact absurd hon (by decide)

theorem SoloOnline.markOnline {es : List Endpoint} (h : SoloOnline es) :
    SoloOnline (markHostOnline es 0) := by
  obtain ⟨hids, hpos, h0, hrest⟩ := h
  refine ⟨hids.setStatus 0 .online, ?_,
    statusOf_setStatus_self hpos .online, ?_⟩
  · unfold markHostOnline
    rw [setStatus_length]
    exact hpos
  · intro k hk
    unfold markHostOnline
    rw [statusOf_setStatus_other (Ne.symm hk)]
    exact hrest k hk

theorem soloOnline_of_markOnline_undef {es : List Endpoint}
    (hids : IdsOk es) (hpos : 0 < es.length)
    (hQ : ∀ e ∈ es, e.status = .undef) : SoloOnline (markHostOnline es 0) := by
  refine ⟨hids.setStatus 0 .online, ?_,
    statusOf_setStatus_self hpos .online, ?_⟩
  · unfold markHostOnline
    rw [setStatus_length]
    exact hpos
  · intro k hk
    unfold markHostOnline
    rw [statusOf_setStatus_other (Ne.symm hk)]
    exact statusOf_undef_of_all hQ k

/-- On an all-`UNDEF` registry the round-robin selection returns the cursor
endpoint without advancing the cursor. -/
theorem rr_first_step {st : BalancerState}
    (hQ : ∀ e ∈ st.endpoints, e.status = .undef) :
    roundRobinGetHostToConnect st =
      .ok (asOptimalEndpoint st st.roundRobinId) st := by
  have hrs := statusOf_undef_of_all hQ st.roundRobinId
  have hnil : getRangeByStatus st.endpoints .online = [] :=
    getRangeByStatus_eq_nil.mpr (fun e he => by rw [hQ e he]; decide)
  simp only [roundRobinGetHostToConnect]
  rw [if_neg (by rw [hrs]; decide), hnil]
  simp only [List.isEmpty_nil, if_true]
  rw [if_pos hrs]

/-- In a `SoloOnline` registry every successful round-robin selection names
endpoint `0` and leaves the registry unchanged. -/
theorem rr_step_solo {st : BalancerState} (h : SoloOnline st.endpoints) :
    ∀ info st', roundRobinGetHostToConnect st = .ok info st' →
      info.id = 0 ∧ st'.endpoints = st.endpoints := by
  intro info st' heq
  by_cases hc : st.roundRobinId = 0
  · have hrs : statusOf st.endpoints st.roundRobinId = .online := by
      rw [hc]
      exact h.2.2.1
    simp only [roundRobinGetHostToConnect] at heq
    rw [if_pos hrs] at heq
    cases heq
    exact ⟨hc, rfl⟩
  · have hrs : statusOf st.endpoints st.roundRobinId = .undef :=
      h.2.2.2 _ hc
    have hres : roundRobinGetHostToConnect st =
        .ok (selectEndpoint st 0).1 (selectEndpoint st 0).2 := by
      simp only [roundRobinGetHostToConnect]
      rw [if_neg (by rw [hrs]; decide), range_online_solo h]
      rfl
    rw [hres] at heq
    cases heq
    exact ⟨rfl, rfl⟩

theorem rrTrace_solo : ∀ (k : Nat) (st : BalancerState),
    SoloOnline st.endpoints → ∀ i ∈ rrTrace st k, i = 0 := by
  intro k
  induction k with
  | zero =>
    intro st _ i hi
    cases hi
  | succ k ih =>
    intro st h i hi
    unfold rrTrace at hi
    cases hrr : roundRobinGetHostToConnect st with
    | allTriesFailed st' =>
      rw [hrr] at hi
      cases hi
    | ok info st' =>
      rw [hrr] at hi
      obtain ⟨hid, hes⟩ := rr_step_solo h info st' hrr
      rcases List.mem_cons.mp hi with rfl | hi'
      · exact hid
      · apply ih _ _ _ hi'
        show SoloOnline (markHostOnline st'.endpoints info.id)
        rw [hid, hes]
        exact h.markOnline

/-- What the C5 protocol actually produces: every visited id is `0`. -/
def rrTraceAllZero (hosts : List String) (priCalc : Endpoint → Nat)
    (k : Nat) : Prop :=
  ∀ i ∈ rrTrace (initState hosts priCalc) k, i = 0

/-- C5 counterexample: with two endpoints, the second iteration of
`getHostToConnect(); markHostOnline(result.id)` visits id `0` again, not
id `1` — the trace is `[0, 0]`, not the claimed cyclic `[0, 1]`. -/
theorem roundRobin_trace_not_cyclic :
    rrTrace (initState ["h1:2181", "h2:2181"] (fun e => e.id)) 2 = [0, 0] ∧
    [0, 0] ≠ [0, 1] := by
  refine ⟨by decide, by decide⟩

/-- C5, amended.  For the round-robin policy over a non-empty host list with
all statuses `UNDEF`, repeatedly performing `getHostToConnect()` followed by
`markHostOnline(result.id)` always selects id `0`: the first call returns
the cursor endpoint `0` (without advancing), and every later call returns
`0` again because the `ONLINE`-range check precedes the cursor's `UNDEF`
check once endpoint `0` is `ONLINE`.  The ids are not visited cyclically. -/
theorem roundRobin_trace_constant (hosts : List String)
    (priCalc : Endpoint → Nat) (k : Nat) (hne : hosts ≠ []) :
    rrTraceAllZero hosts priCalc k := by
  unfold rrTraceAllZero
  cases k with
  | zero =>
    intro i hi
    cases hi
  | succ k =>
    intro i hi
    have hQ : ∀ e ∈ (initState hosts priCalc).endpoints, e.status = .undef :=
      initEndpoints_status hosts
    have hfirst := rr_first_step hQ
    unfold rrTrace at hi
    rw [hfirst] at hi
    rcases List.mem_cons.mp hi with rfl | hi'
    · rfl
    · have hpos : 0 < (initState hosts priCalc).endpoints.length := by
        show 0 < (initEndpoints hosts).length
        rw [initEndpoints_length]
        exact List.length_pos.mpr hne
      apply rrTrace_solo k _ _ _ hi'
      exact soloOnline_of_markOnline_undef (initEndpoints_idsOk hosts)
        hpos hQ

/-- Witness for the amended C5 at a concrete host list. -/
theorem roundRobin_trace_constant_witness :
    (["h1:2181", "h2:2181"] ≠ ([] : List String)) ∧
    rrTraceAllZero ["h1:2181", "h2:2181"] (fun e => e.id) 3 :=
  ⟨by decide, roundRobin_trace_constant ["h1:2181", "h2:2181"]
    (fun e => e.id) 3 (by decide)⟩

/-- Registry exhibiting the C7 divergence: endpoint 0 `UNDEF`, endpoint 1
`ONLINE`. -/
def stFirstBug : BalancerState :=
  { endpoints := [⟨"h1:2181", false, 0, .undef⟩,
                  ⟨"h2:2181", false, 1, .online⟩],
    priorities := [], roundRobinId := 0 }

/-- C7 counterexample: `status(0) = UNDEF`, yet `getHostToConnect` returns
endpoint 1 with `use_fallback_session_lifetime = true`, because the
`ONLINE`-range check precedes the `UNDEF` check of endpoint 0. -/
theorem firstOrRandom_not_first :
    statusOf stFirstBug.endpoints 0 = .undef ∧
    getHostToConnect .firstOrRandom stFirstBug 0 =
      .ok { address := "h2:2181", secure := false, id := 1,
            settings := { use_fallback_session_lifetime := true } }
        stFirstBug := by
  refine ⟨by decide, by decide⟩

/-- The amended C7 behaviour of the first-or-random policy: endpoint 0 wins
(as optimal) when it is `ONLINE`, or when it is `UNDEF` and nothing is
`ONLINE`; when endpoint 0 is not `ONLINE` and some endpoint is `ONLINE`, the
selection is a uniform draw from the `ONLINE` range (every member
attainable), returned with the fallback session lifetime; when endpoint 0 is
`OFFLINE`, nothing is `ONLINE` and something is `UNDEF`, the selection is a
uniform draw from the `UNDEF` range with the fallback session lifetime. -/
def firstOrRandomSpec (st : BalancerState) (rand : Nat) : Prop :=
  (statusOf st.endpoints 0 = .online →
     getHostToConnect .firstOrRandom st rand = .ok (asOptimalEndpoint st 0) st ∧
     (asOptimalEndpoint st 0).settings.use_fallback_session_lifetime = false) ∧
  (statusOf st.endpoints 0 = .undef →
     getRangeByStatus st.endpoints .online = [] →
     getHostToConnect .firstOrRandom st rand = .ok (asOptimalEndpoint st 0) st ∧
     (asOptimalEndpoint st 0).settings.use_fallback_session_lifetime = false) ∧
  (statusOf st.endpoints 0 ≠ .online →
     getRangeByStatus st.endpoints .online ≠ [] →
     getHostToConnect .firstOrRandom st rand =
       .ok (asTemporaryEndpoint st
         ((getRangeByStatus st.endpoints .online).getD
           (rand % (getRangeByStatus st.endpoints .online).length) 0)) st ∧
     statusOf st.endpoints
       ((getRangeByStatus st.endpoints .online).getD
         (rand % (getRangeByStatus st.endpoints .online).length) 0) =
       .online ∧
     (∀ k, (asTemporaryEndpoint st k).settings.use_fallback_session_lifetime
       = true) ∧
     (∀ x ∈ getRangeByStatus st.endpoints .online, ∃ r,
        getHostToConnect .firstOrRandom st r =
          .ok (asTemporaryEndpoint st x) st)) ∧
  (statusOf st.endpoints 0 = .offline →
     getRangeByStatus st.endpoints .online = [] →
     getRangeByStatus st.endpoints .undef ≠ [] →
     getHostToConnect .firstOrRandom st rand =
       .ok (asTemporaryEndpoint st
         ((getRangeByStatus st.endpoints .undef).getD
           (rand % (getRangeByStatus st.endpoints .undef).length) 0)) st ∧
     statusOf st.endpoints
       ((getRangeByStatus st.endpoints .undef).getD
         (rand % (getRangeByStatus st.endpoints .undef).length) 0) =
       .undef ∧
     (∀ x ∈ getRangeByStatus st.endpoints .undef, ∃ r,
        getHostToConnect .firstOrRandom st r =
          .ok (asTemporaryEndpoint st x) st))

/-- C7, amended as `firstOrRandomSpec` (see the counterexample
`firstOrRandom_not_first`: endpoint 0 being `UNDEF` does not win over an
`ONLINE` endpoint). -/
theorem firstOrRandom_selection_spec (st : BalancerState) (rand : Nat)
    (hids : IdsOk st.endpoints) : firstOrRandomSpec st rand := by
  unfold firstOrRandomSpec
  refine ⟨?_, ?_, ?_, ?_⟩
  · intro h0
    refine ⟨?_, rfl⟩
    simp only [getHostToConnect, firstOrRandomGetHostToConnect]
    rw [if_pos h0]
  · intro h0 hnil
    refine ⟨?_, rfl⟩
    simp only [getHostToConnect, firstOrRandomGetHostToConnect]
    rw [if_neg (by rw [h0]; decide), hnil]
    simp only [List.isEmpty_nil, if_true]
    rw [if_pos h0]
  · intro h0 hne
    cases hon : getRangeByStatus st.endpoints .online with
    | nil => exact absurd hon hne
    | cons a t =>
      have hres : ∀ r, getHostToConnect .firstOrRandom st r =
          .ok (firstOrRandomGetHostFrom st (a :: t) r) st := by
        intro r
        simp only [getHostToConnect, firstOrRandomGetHostToConnect]
        rw [if_neg h0, hon]
        rfl
      refine ⟨hres rand, ?_, fun _ => rfl, ?_⟩
      · have hmem : (a :: t).getD (rand % (a :: t).length) 0 ∈
            getRangeByStatus st.endpoints .online := by
          rw [hon]
          exact getD_mod_mem (by simp) rand
        exact (statusOf_of_mem_range hids hmem).2
      · intro x hx
        obtain ⟨n, hn, hnx⟩ := List.mem_iff_getElem.mp hx
        refine ⟨n, ?_⟩
        rw [hres n]
        have hgd : (a :: t).getD (n % (a :: t).length) 0 = x := by
          rw [Nat.mod_eq_of_lt hn, List.getD_eq_getElem?_getD,
            List.getElem?_eq_getElem hn]
          simpa using hnx
        unfold firstOrRandomGetHostFrom
        rw [hgd]
  · intro h0 hnil hne
    cases hun : getRangeByStatus st.endpoints .undef with
    | nil => exact absurd hun hne
    | cons a t =>
      have hres : ∀ r, getHostToConnect .firstOrRandom st r =
          .ok (firstOrRandomGetHostFrom st (a :: t) r) st := by
        intro r
        simp only [getHostToConnect, firstOrRandomGetHostToConnect]
        rw [if_neg (by rw [h0]; decide), hnil]
        simp only [List.isEmpty_nil, if_true]
        rw [if_neg (by rw [h0]; decide), hun]
        rfl
      refine ⟨hres rand, ?_, ?_⟩
      · have hmem : (a :: t).getD (rand % (a :: t).length) 0 ∈
            getRangeByStatus st.endpoints .undef := by
          rw [hun]
          exact getD_mod_mem (by simp) rand
        exact (statusOf_of_mem_range hids hmem).2
      · intro x hx
        obtain ⟨n, hn, hnx⟩ := List.mem_iff_getElem.mp hx
        refine ⟨n, ?_⟩
        rw [hres n]
        have hgd : (a :: t).getD (n % (a :: t).length) 0 = x := by
          rw [Nat.mod_eq_of_lt hn, List.getD_eq_getElem?_getD,
            List.getElem?_eq_getElem hn]
          simpa using hnx
        unfold firstOrRandomGetHostFrom
        rw [hgd]

/-- Witness for the amended C7 at a concrete registry (endpoint 0 `UNDEF`,
endpoint 1 `ONLINE`, so the third branch applies). -/
theorem firstOrRandom_selection_spec_witness :
    IdsOk [⟨"h1:2181", false, 0, .undef⟩, ⟨"h2:2181", false, 1, .online⟩] ∧
    firstOrRandomSpec
      { endpoints := [⟨"h1:2181", false, 0, .undef⟩,
                      ⟨"h2:2181", false, 1, .online⟩],
        priorities := [], roundRobinId := 0 } 0 :=
  ⟨by decide, firstOrRandom_selection_spec _ 0 (by decide)⟩

end ZooKeeperLoadBalancer
